import Mathlib

/-!
Shallow embedding of the NES PPU core of this repository (src/ppu.rs and
src/ppu_memory_layout.rs) and proofs about it.

Machine integers are modelled as `Nat`. Fields of Rust type `u8`/`u16` are
stored as `Nat`; every Rust cast site (`x as u16`, `x as usize`, a `u8`
result of a bus read) is rendered as an explicit `% 256`, and `u16`
`wrapping_add` as `% 65536`.

The PPU bus (`Memory: PpuAddressable` in the source) is a function
`Nat → Except PpuError Nat` for reads; the write capability of the DATA
port is a function `Nat → Nat → Option PpuError` (`none` = success, the
CPU-visible PPU state never depends on the written-to memory itself).

Rendering is instrumented: a `render` produces the list of observable
events (bus reads and `set_pixel` calls) in program order, the post state,
and the error it aborted with, if any (`&mut` effects performed before an
early `try!` return persist, exactly as in the source).
-/

set_option maxRecDepth 100000
set_option maxHeartbeats 4000000

/-- Error type of src/addressable.rs (the variants constructed by the PPU;
`IllegalRead` is constructed in src/ppu.rs). -/
inductive PpuError where
  | BusErrorRead (a : Nat)
  | BusErrorWrite (a : Nat)
  | IllegalRead (a : Nat)
  | IllegalWrite (a : Nat)
  | UnimplementedRead (a : Nat)
  | UnimplementedWrite (a : Nat)
deriving DecidableEq

/-- An observable event of a render: a PPU-bus read of an address, or a
`set_pixel(x, y, colour)` call on the frame sink. -/
inductive Ev where
  | read (a : Nat)
  | pix (x y c : Nat)
deriving DecidableEq

abbrev Trace := List Ev

/-- The PPU-bus read capability (`ppu_read8`). -/
abbrev MemR := Nat → Except PpuError Nat

/-- The PPU-bus write capability used by the DATA port (`ppu_write8`);
`none` means success. -/
abbrev MemW := Nat → Nat → Option PpuError

/-- A total PPU-bus memory: every read succeeds, returning `f a`. -/
def okM (f : Nat → Nat) : MemR := fun a => Except.ok (f a)

/-- Number of `Ev.read a` events in a trace. -/
def countRead : Trace → Nat → Nat
  | [], _ => 0
  | Ev.read b :: t, a => (if b = a then 1 else 0) + countRead t a
  | Ev.pix _ _ _ :: t, a => countRead t a

/-- `true` on a `set_pixel` event whose coordinates fall outside the
256×240 frame. -/
def badPix : Ev → Bool
  | Ev.pix x y _ => 256 ≤ x || 240 ≤ y
  | Ev.read _ => false

inductive ScrollAxis where
  | X
  | Y
deriving DecidableEq

inductive AddressPhase where
  | LOW
  | HIGH
deriving DecidableEq

/-- The CPU-visible register file of src/ppu.rs. -/
structure PpuRegisterFile where
  controller : Nat
  mask : Nat
  status : Nat
  oam_address : Nat
  scroll : Nat
  address : Nat
deriving DecidableEq

/-- The PPU state of src/ppu.rs. OAM (a `Vec<u8>` of length 256 in the
source) is a function from index to byte. -/
structure Ppu where
  registers : PpuRegisterFile
  scroll_axis : ScrollAxis
  scroll_x : Nat
  scroll_y : Nat
  address_phase : AddressPhase
  address : Nat
  oam : Nat → Nat
  data_latch : Nat

def PpuRegisterFile.new : PpuRegisterFile :=
  { controller := 0, mask := 0, status := 0, oam_address := 0, scroll := 0, address := 0 }

def Ppu.new : Ppu :=
  { registers := PpuRegisterFile.new
    scroll_axis := ScrollAxis.X
    scroll_x := 0
    scroll_y := 0
    address_phase := AddressPhase.HIGH
    address := 0
    oam := fun _ => 0
    data_latch := 0 }

/-- Modelled from the spec: the CPU interrupt state (`InterruptState` lives
in the absent src/cpu.rs); per spec section 6 it is a value type exposing a
mutable `nmi : bool`. -/
structure InterruptState where
  nmi : Bool
deriving DecidableEq

def Ppu.vblank_start (p : Ppu) (interrupts : InterruptState) : Ppu × InterruptState :=
  let p := { p with registers := { p.registers with status := p.registers.status ||| 128 } }
  let interrupts :=
    if p.registers.controller &&& 128 ≠ 0 then { interrupts with nmi := true } else interrupts
  (p, interrupts)

def Ppu.vblank_end (p : Ppu) (interrupts : InterruptState) : Ppu × InterruptState :=
  ({ p with registers := { p.registers with status := p.registers.status &&& 0x7f } }, interrupts)

def Ppu.render_end (p : Ppu) : Ppu :=
  { p with registers := { p.registers with status := p.registers.status &&& 0xbf } }

def Ppu.set_oam_address (p : Ppu) (address : Nat) : Ppu :=
  { p with registers := { p.registers with oam_address := address } }

def Ppu.oam_data_write (p : Ppu) (data : Nat) : Ppu :=
  { p with
    oam := fun k => if k = p.registers.oam_address % 256 then data else p.oam k
    registers := { p.registers with oam_address := (p.registers.oam_address + 1) % 256 } }

def Ppu.increment_address (p : Ppu) : Ppu :=
  if p.registers.controller &&& 4 ≠ 0 then { p with address := (p.address + 32) % 65536 }
  else { p with address := (p.address + 1) % 65536 }

/-- `Ppu::read8`: a CPU read of register `address`; returns the value (or
error) together with the post state. -/
def Ppu.read8 (p : Ppu) (address : Nat) (mem : MemR) : Except PpuError Nat × Ppu :=
  match address with
  | 0 => (Except.error (PpuError.IllegalRead 0), p)
  | 1 => (Except.error (PpuError.IllegalRead 1), p)
  | 2 =>
    (Except.ok p.registers.status,
     { p with registers := { p.registers with status := p.registers.status &&& 0x7f } })
  | 3 => (Except.error (PpuError.IllegalRead 3), p)
  | 4 => (Except.ok (p.oam (p.registers.oam_address % 256)), p)
  | 5 => (Except.error (PpuError.IllegalRead 5), p)
  | 6 => (Except.error (PpuError.IllegalRead 6), p)
  | 7 =>
    match mem p.address with
    | Except.error e => (Except.error e, p)
    | Except.ok v =>
      (Except.ok p.data_latch, Ppu.increment_address { p with data_latch := v % 256 })
  | n => (Except.error (PpuError.UnimplementedRead n), p)

/-- `Ppu::write8`: a CPU write of `data` to register `address`. -/
def Ppu.write8 (p : Ppu) (address data : Nat) (memw : MemW) : Option PpuError × Ppu :=
  let p := { p with registers := { p.registers with status := p.registers.status ||| (data &&& 31) } }
  match address with
  | 0 => (none, { p with registers := { p.registers with controller := data } })
  | 1 => (none, { p with registers := { p.registers with mask := data } })
  | 2 => (some (PpuError.IllegalWrite 2), p)
  | 3 => (none, p.set_oam_address data)
  | 4 => (none, p.oam_data_write data)
  | 5 =>
    let p :=
      match p.scroll_axis with
      | ScrollAxis.X => { p with scroll_axis := ScrollAxis.Y }
      | ScrollAxis.Y =>
        { p with scroll_axis := ScrollAxis.X, scroll_x := p.registers.scroll, scroll_y := data }
    (none, { p with registers := { p.registers with scroll := data } })
  | 6 =>
    let p :=
      match p.address_phase with
      | AddressPhase.HIGH => { p with address_phase := AddressPhase.LOW }
      | AddressPhase.LOW =>
        { p with address_phase := AddressPhase.HIGH,
                 address := ((p.registers.address % 256) <<< 8) ||| (data % 256) }
    (none, { p with registers := { p.registers with address := data } })
  | 7 =>
    match memw p.address data with
    | some e => (some e, p)
    | none => (none, p.increment_address)
  | n => (some (PpuError.UnimplementedWrite n), p)

def background_base_patterntable_address (p : Ppu) : Nat :=
  if p.registers.controller &&& 16 = 0 then 0x0000 else 0x1000

def sprite_base_patterntable_address (p : Ppu) : Nat :=
  if p.registers.controller &&& 8 = 0 then 0x0000 else 0x1000

def background_top_left_coord (p : Ppu) : Nat × Nat :=
  let x := p.scroll_x % 256
  let y := p.scroll_y % 256
  let x := if p.registers.controller &&& 1 ≠ 0 then x + 256 else x
  let y := if p.registers.controller &&& 2 ≠ 0 then y + 240 else y
  (x, y)

/-- `Ppu::metatile_id`. -/
def metatile_id (tile_x tile_y : Nat) : Nat :=
  let x := tile_x / 2
  let y := tile_y / 2
  ((y &&& 1) <<< 1) ||| (x &&& 1)

/-- `Ppu::tile_coord_to_nametable_base`. -/
def tile_coord_to_nametable_base (x y : Nat) : Nat :=
  if x < 32 then (if y < 30 then 0x2000 else 0x2800)
  else (if y < 30 then 0x2400 else 0x2c00)

/-- The inner (column) loop of `Ppu::render_background_tile`, threading the
two shifted pattern rows. -/
def bgTileCols (mem : MemR) (palette_base : Nat) (px_off_x : Int) (pixel_y : Nat) :
    List Nat → Nat → Nat → Trace × Option PpuError
  | [], _, _ => ([], none)
  | j :: js, row_0, row_1 =>
    let palette_index := (row_0 &&& 1) ||| ((row_1 &&& 1) <<< 1)
    if palette_index ≠ 0 then
      match mem (palette_base + palette_index) with
      | Except.error e => ([Ev.read (palette_base + palette_index)], some e)
      | Except.ok c =>
        let colour := c % 256
        let pixel_x : Int := px_off_x + ((8 - 1 - j : Nat) : Int)
        let rest := bgTileCols mem palette_base px_off_x pixel_y js (row_0 >>> 1) (row_1 >>> 1)
        if 0 ≤ pixel_x ∧ pixel_x < 256 then
          (Ev.read (palette_base + palette_index) :: Ev.pix pixel_x.toNat pixel_y colour :: rest.1,
           rest.2)
        else
          (Ev.read (palette_base + palette_index) :: rest.1, rest.2)
    else
      bgTileCols mem palette_base px_off_x pixel_y js (row_0 >>> 1) (row_1 >>> 1)

/-- The outer (row) loop of `Ppu::render_background_tile`. -/
def bgTileRows (mem : MemR) (pt_address palette_base : Nat) (px_off_x px_off_y : Int) :
    List Nat → Trace × Option PpuError
  | [] => ([], none)
  | i :: is =>
    match mem (pt_address + i) with
    | Except.error e => ([Ev.read (pt_address + i)], some e)
    | Except.ok r0 =>
      match mem (pt_address + 8 + i) with
      | Except.error e =>
        ([Ev.read (pt_address + i), Ev.read (pt_address + 8 + i)], some e)
      | Except.ok r1 =>
        let row_0 := r0 % 256
        let row_1 := r1 % 256
        let pixel_y : Int := px_off_y + (i : Int)
        if pixel_y < 0 ∨ 240 ≤ pixel_y then
          let rest := bgTileRows mem pt_address palette_base px_off_x px_off_y is
          (Ev.read (pt_address + i) :: Ev.read (pt_address + 8 + i) :: rest.1, rest.2)
        else
          let cols := bgTileCols mem palette_base px_off_x pixel_y.toNat (List.range 8) row_0 row_1
          match cols.2 with
          | some e => (Ev.read (pt_address + i) :: Ev.read (pt_address + 8 + i) :: cols.1, some e)
          | none =>
            let rest := bgTileRows mem pt_address palette_base px_off_x px_off_y is
            (Ev.read (pt_address + i) :: Ev.read (pt_address + 8 + i) :: (cols.1 ++ rest.1), rest.2)

/-- `Ppu::render_background_tile`. -/
def render_background_tile (mem : MemR) (pt_base nt_base nt_tile_x nt_tile_y : Nat)
    (px_off_x px_off_y : Int) : Trace × Option PpuError :=
  let nt_offset := nt_tile_y * 32 + nt_tile_x
  let nt_address := nt_base + nt_offset
  match mem nt_address with
  | Except.error e => ([Ev.read nt_address], some e)
  | Except.ok v =>
    let pt_index := v % 256
    let pt_offset := pt_index * 16
    let pt_address := pt_base ||| pt_offset
    let at_base := nt_base + 0x3c0
    let at_index := (nt_tile_y / 4) * (32 / 4) + (nt_tile_x / 4)
    let at_byte_address := at_base + at_index
    match mem at_byte_address with
    | Except.error e => ([Ev.read nt_address, Ev.read at_byte_address], some e)
    | Except.ok u =>
      let at_byte := u % 256
      let at_bits := (at_byte >>> (metatile_id nt_tile_x nt_tile_y * 2)) &&& 3
      let palette_base := 0x3f00 + at_bits * 4
      let rows := bgTileRows mem pt_address palette_base px_off_x px_off_y (List.range 8)
      (Ev.read nt_address :: Ev.read at_byte_address :: rows.1, rows.2)

/-- `Ppu::render_universal_background`. -/
def render_universal_background (mem : MemR) : Trace × Option PpuError :=
  match mem 0x3f00 with
  | Except.error e => ([Ev.read 0x3f00], some e)
  | Except.ok c =>
    let colour := c % 256
    (Ev.read 0x3f00 ::
       (List.range 240).flatMap (fun i => (List.range 256).map (fun j => Ev.pix j i colour)),
     none)

/-- The inner (column) loop of `Ppu::render_background`. -/
def bgRowTiles (mem : MemR) (pt_base tile_offset_x : Nat) (pixel_offset_x pixel_offset_y : Int)
    (abs_i i : Nat) : List Nat → Trace × Option PpuError
  | [] => ([], none)
  | j :: js =>
    let abs_j := (j + tile_offset_x) % 64
    let nametable_address := tile_coord_to_nametable_base abs_j abs_i
    let local_x := abs_j % 32
    let local_y := abs_i % 30
    let px_x : Int := ((j * 8 : Nat) : Int) - pixel_offset_x
    let px_y : Int := ((i * 8 : Nat) : Int) - pixel_offset_y
    let t := render_background_tile mem pt_base nametable_address local_x local_y px_x px_y
    match t.2 with
    | some e => (t.1, some e)
    | none =>
      let rest := bgRowTiles mem pt_base tile_offset_x pixel_offset_x pixel_offset_y abs_i i js
      (t.1 ++ rest.1, rest.2)

/-- The outer (row) loop of `Ppu::render_background`. -/
def bgRows (mem : MemR) (pt_base tile_offset_x tile_offset_y : Nat)
    (pixel_offset_x pixel_offset_y : Int) : List Nat → Trace × Option PpuError
  | [] => ([], none)
  | i :: is =>
    let abs_i := (i + tile_offset_y) % 60
    let row := bgRowTiles mem pt_base tile_offset_x pixel_offset_x pixel_offset_y abs_i i
      (List.range 33)
    match row.2 with
    | some e => (row.1, some e)
    | none =>
      let rest := bgRows mem pt_base tile_offset_x tile_offset_y pixel_offset_x pixel_offset_y is
      (row.1 ++ rest.1, rest.2)

/-- `Ppu::render_background`: 31 rows by 33 columns of tiles. -/
def render_background (p : Ppu) (mem : MemR) : Trace × Option PpuError :=
  let pt_base := background_base_patterntable_address p
  let tl := background_top_left_coord p
  let pixel_offset_x : Int := ((tl.1 &&& 7 : Nat) : Int)
  let pixel_offset_y : Int := ((tl.2 &&& 7 : Nat) : Int)
  let tile_offset_x := tl.1 >>> 3
  let tile_offset_y := tl.2 >>> 3
  bgRows mem pt_base tile_offset_x tile_offset_y pixel_offset_x pixel_offset_y (List.range 31)

/-- The `Sprite` record of src/ppu.rs. -/
structure Sprite where
  x : Nat
  y : Nat
  index : Nat
  palette : Nat
  priority : Bool
  horizontal_flip : Bool
  vertical_flip : Bool

/-- `Sprite::new`. -/
def Sprite.new (x y attributes index : Nat) : Sprite :=
  { x := x
    y := y
    index := index
    palette := attributes &&& 3
    priority := (attributes &&& 32) != 0
    horizontal_flip := (attributes &&& 64) != 0
    vertical_flip := (attributes &&& 128) != 0 }

/-- `Sprite::is_visible`. -/
def Sprite.is_visible (s : Sprite) : Bool := s.y < 0xef

/-- The inner (column) loop of `Ppu::render_sprite_8x8`; the third component
is the `hit` flag. -/
def spriteCols (mem : MemR) (palette_base : Nat) (hflip : Bool) (sx pixel_y : Nat) :
    List Nat → Nat → Nat → Trace × Option PpuError × Bool
  | [], _, _ => ([], none, false)
  | j :: js, row_0, row_1 =>
    let palette_index := (row_0 &&& 1) ||| ((row_1 &&& 1) <<< 1)
    if palette_index ≠ 0 then
      match mem (palette_base + palette_index) with
      | Except.error e => ([Ev.read (palette_base + palette_index)], some e, false)
      | Except.ok c =>
        let colour := c % 256
        let pixel_x := if hflip then sx % 256 + j else sx % 256 + 8 - 1 - j
        let rest := spriteCols mem palette_base hflip sx pixel_y js (row_0 >>> 1) (row_1 >>> 1)
        (Ev.read (palette_base + palette_index) :: Ev.pix pixel_x pixel_y colour :: rest.1,
         rest.2.1, true)
    else
      spriteCols mem palette_base hflip sx pixel_y js (row_0 >>> 1) (row_1 >>> 1)

/-- The outer (row) loop of `Ppu::render_sprite_8x8`. -/
def spriteRows (mem : MemR) (pt_address palette_base : Nat) (vflip hflip : Bool) (sx sy : Nat) :
    List Nat → Trace × Option PpuError × Bool
  | [] => ([], none, false)
  | i :: is =>
    match mem (pt_address + i) with
    | Except.error e => ([Ev.read (pt_address + i)], some e, false)
    | Except.ok r0 =>
      match mem (pt_address + 8 + i) with
      | Except.error e =>
        ([Ev.read (pt_address + i), Ev.read (pt_address + 8 + i)], some e, false)
      | Except.ok r1 =>
        let row_0 := r0 % 256
        let row_1 := r1 % 256
        let pixel_y := if vflip then sy % 256 + 8 - 1 - i else sy % 256 + i
        let cols := spriteCols mem palette_base hflip sx pixel_y (List.range 8) row_0 row_1
        match cols.2.1 with
        | some e =>
          (Ev.read (pt_address + i) :: Ev.read (pt_address + 8 + i) :: cols.1, some e, cols.2.2)
        | none =>
          let rest := spriteRows mem pt_address palette_base vflip hflip sx sy is
          (Ev.read (pt_address + i) :: Ev.read (pt_address + 8 + i) :: (cols.1 ++ rest.1),
           rest.2.1, cols.2.2 || rest.2.2)

/-- `Ppu::render_sprite_8x8`. -/
def render_sprite_8x8 (p : Ppu) (mem : MemR) (s : Sprite) : Trace × Option PpuError × Bool :=
  let pt_base := sprite_base_patterntable_address p
  let pt_offset := (s.index % 256) * 16
  let pt_address := pt_base ||| pt_offset
  let palette_base := 0x3f10 + (s.palette % 256) * 4
  spriteRows mem pt_address palette_base s.vertical_flip s.horizontal_flip s.x s.y (List.range 8)

/-- The loop of `Ppu::render_sprites_8x8`, threading STATUS (third
component of the result). -/
def spritesLoop (p : Ppu) (mem : MemR) : Nat → List Nat → Trace × Option PpuError × Nat
  | status, [] => ([], none, status)
  | status, i :: is =>
    let index := i * 4
    let s := Sprite.new (p.oam (index + 3)) (p.oam (index + 0)) (p.oam (index + 2))
      (p.oam (index + 1))
    if s.is_visible then
      let r := render_sprite_8x8 p mem s
      match r.2.1 with
      | some e => (r.1, some e, status)
      | none =>
        let status' := if i = 0 ∧ r.2.2 then status ||| 64 else status
        let rest := spritesLoop p mem status' is
        (r.1 ++ rest.1, rest.2.1, rest.2.2)
    else
      spritesLoop p mem status is

/-- `Ppu::render_sprites_8x8`. -/
def render_sprites_8x8 (p : Ppu) (mem : MemR) : Trace × Option PpuError × Nat :=
  spritesLoop p mem p.registers.status (List.range 64)

/-- `Ppu::render`: universal background, then background tiles, then
sprites; returns the event trace, the post state, and the error if one
aborted the render. -/
def render (p : Ppu) (mem : MemR) : Trace × Ppu × Option PpuError :=
  let u := render_universal_background mem
  match u.2 with
  | some e => (u.1, p, some e)
  | none =>
    let b := render_background p mem
    match b.2 with
    | some e => (u.1 ++ b.1, p, some e)
    | none =>
      let sp := render_sprites_8x8 p mem
      (u.1 ++ b.1 ++ sp.1,
       { p with registers := { p.registers with status := sp.2.2 } }, sp.2.1)

/-- `PpuMemoryLayout::ppu_read8` (src/ppu_memory_layout.rs): the address
routing is from the source; the cartridge and palette backends are
Modelled from the spec: src/cartridge.rs, src/vram.rs and src/palette.rs
are absent, and per spec sections 4.5 and 6 a cartridge read and a palette
read return a byte, here `cartridge a % 256` and `palette off % 256`. -/
def ppu_memory_layout_read8 (cartridge palette : Nat → Nat) (address : Nat) :
    Except PpuError Nat :=
  if address ≤ 0x2fff then Except.ok (cartridge address % 256)
  else if address ≤ 0x3eff then Except.ok (cartridge (address - 0x1000) % 256)
  else if address ≤ 0x3f1f then Except.ok (palette (address - 0x3f00) % 256)
  else if address ≤ 0x3fff then Except.ok (palette ((address - 0x3f20) % 32) % 256)
  else Except.error (PpuError.BusErrorRead address)

/-- Per-tile contribution, at abstract tile coordinates, to the number of
times the background renderer reads a given address (one nametable read and
one attribute read per tile). -/
def bgTileReadCountA (abs_i abs_j a : Nat) : Nat :=
  let nt := tile_coord_to_nametable_base abs_j abs_i
  let lx := abs_j % 32
  let ly := abs_i % 30
  (if nt + (ly * 32 + lx) = a then 1 else 0) +
    (if nt + 0x3c0 + ((ly / 4) * 8 + lx / 4) = a then 1 else 0)

/-- Total number of reads of address `a` performed by a zero-scroll
background render, as a closed formula. -/
def bgTotal (a : Nat) : Nat :=
  ((List.range 31).map (fun i =>
      ((List.range 33).map (fun j => bgTileReadCountA (i % 60) (j % 64) a)).sum)).sum

/-- A PPU-bus memory every read of which fails. -/
def memE : MemR := fun a => Except.error (PpuError.BusErrorRead a)

/-- A PPU-bus write capability that always succeeds. -/
def memw0 : MemW := fun _ _ => none

/-- A PPU-bus memory that returns 7 everywhere. -/
def memW5 : MemR := fun _ => Except.ok 7

/-- A concrete reachable state whose ADDR phase toggle is LOW: one ADDR
write has been performed on a fresh PPU. -/
def pC1 : Ppu := (Ppu.write8 Ppu.new 6 0 memw0).2

/-- A concrete state whose STATUS byte is 0x1f. -/
def pC2 : Ppu := { Ppu.new with registers := { Ppu.new.registers with status := 31 } }

/-- A concrete reachable state after ADDR writes of high byte 0x40 and low
byte 0x00: its vram address is 0x4000. -/
def pC4 : Ppu := (Ppu.write8 (Ppu.write8 Ppu.new 6 0x40 memw0).2 6 0 memw0).2

/-- A PPU-bus built from the modelled memory layout with all-zero cartridge
and palette contents. -/
def memL : MemR := ppu_memory_layout_read8 (fun _ => 0) (fun _ => 0)

/-- A concrete state all of whose OAM Y bytes are 0xEF (every sprite slot
is invisible). -/
def pC6 : Ppu := { Ppu.new with oam := fun _ => 0xef }

/-- A concrete reachable state: from a fresh PPU, OAM address is set to 0
and the four OAM bytes Y = 0xEE, tile = 1, attributes = 0, X = 0xFF are
streamed in, describing a visible sprite at the bottom-right corner. -/
def p8 : Ppu :=
  (Ppu.write8 (Ppu.write8 (Ppu.write8 (Ppu.write8 (Ppu.write8 Ppu.new
    3 0 memw0).2 4 0xee memw0).2 4 1 memw0).2 4 0 memw0).2 4 0xff memw0).2

/-- Pattern memory for the sprite of `p8`: tile 1's row 7 low plane is 1,
everything else (including all palettes) is 0. -/
def f8 : Nat → Nat := fun a => if a = 23 then 1 else 0

/-! ## Register-port theorems -/

/-- C1 (amended): a CPU read of offset 2 (STATUS) returns the current
STATUS byte and, as its only state change, clears the VBLANK bit (bit 7);
the ADDR phase and SCROLL axis toggles (and everything else) are left
unchanged. -/
theorem read8_status_spec (p : Ppu) (mem : MemR) :
    Ppu.read8 p 2 mem =
      (Except.ok p.registers.status,
       { p with registers := { p.registers with status := p.registers.status &&& 0x7f } }) := rfl

/-- C1 (counterexample): on a reachable state whose ADDR phase toggle is
LOW, reading STATUS does not reset the toggle to HIGH, contradicting the
claim that it does. -/
theorem read8_status_counterexample :
    (Ppu.read8 pC1 2 memE).2.address_phase ≠ AddressPhase.HIGH := by decide

/-- C2 (amended): a CPU write of byte `b` to any offset OR-merges the low 5
bits of `b` into STATUS: afterwards STATUS equals the previous STATUS OR
`b &&& 31` (so the low 5 bits are the union of old and new, not `b`'s). -/
theorem write8_status_merge (p : Ppu) (a b : Nat) (w : MemW) :
    ((Ppu.write8 p a b w).2).registers.status = p.registers.status ||| (b &&& 31) := by
  obtain ⟨⟨c, mk, st, oa, sc, adr⟩, sa, sx, sy, ap, ad, om, dl⟩ := p
  rcases a with _ | _ | _ | _ | _ | _ | _ | _ | n
  · rfl
  · rfl
  · rfl
  · rfl
  · rfl
  · cases sa <;> rfl
  · cases ap <;> rfl
  · show ((Ppu.write8 _ 7 b w).2).registers.status = _
    cases h : w ad b <;>
      · first
        | (simp [Ppu.write8, h, Ppu.increment_address]
           split <;> rfl)
        | simp [Ppu.write8, h, Ppu.increment_address]
  · rfl

/-- C2 (counterexample): with STATUS = 0x1f, writing byte 0 to offset 0
leaves the low 5 bits of STATUS at 0x1f, not at 0's low 5 bits. -/
theorem write8_status_merge_counterexample :
    ((Ppu.write8 pC2 0 0 memw0).2).registers.status &&& 31 ≠ 0 &&& 31 := by decide

/-- C4 (amended): starting with the ADDR phase toggle HIGH, writing `h`
then `l` to offset 6 leaves the toggle back at HIGH and leaves
`vram_address` equal, exactly, to `((h mod 256) <<< 8) ||| (l mod 256)` --
the high bits are not masked to 14 bits. -/
theorem addr_write_pair_spec (p : Ppu) (h l : Nat) (w : MemW)
    (hp : p.address_phase = AddressPhase.HIGH) :
    ((Ppu.write8 (Ppu.write8 p 6 h w).2 6 l w).2).address_phase = AddressPhase.HIGH ∧
    ((Ppu.write8 (Ppu.write8 p 6 h w).2 6 l w).2).address = ((h % 256) <<< 8) ||| (l % 256) := by
  obtain ⟨⟨c, mk, st, oa, sc, adr⟩, sa, sx, sy, ap, ad, om, dl⟩ := p
  cases hp
  exact ⟨rfl, rfl⟩

/-- C4 (witness for the amended claim): the two-write protocol at a fresh
PPU with bytes 0x12, 0x34. -/
theorem addr_write_pair_spec_witness :
    ((Ppu.write8 (Ppu.write8 Ppu.new 6 0x12 memw0).2 6 0x34 memw0).2).address_phase =
        AddressPhase.HIGH ∧
    ((Ppu.write8 (Ppu.write8 Ppu.new 6 0x12 memw0).2 6 0x34 memw0).2).address =
        ((0x12 % 256) <<< 8) ||| (0x34 % 256) :=
  addr_write_pair_spec Ppu.new 0x12 0x34 memw0 rfl

/-- C4 (counterexample): after ADDR writes of (0x40, 0x00) the committed
address is 0x4000, and a DATA-port read through the memory layout does not
behave as if the address were `((0x40 &&& 0x3f) <<< 8) ||| 0x00 = 0x0000`:
the former fails with a bus error while the latter succeeds. -/
theorem addr_write_pair_counterexample :
    (Ppu.read8 pC4 7 memL).1 = Except.error (PpuError.BusErrorRead 0x4000) ∧
    (Ppu.read8 { pC4 with address := ((0x40 &&& 0x3f) <<< 8) ||| 0x00 } 7 memL).1 =
      Except.ok pC4.data_latch ∧
    (Ppu.read8 pC4 7 memL).1 ≠
      (Ppu.read8 { pC4 with address := ((0x40 &&& 0x3f) <<< 8) ||| 0x00 } 7 memL).1 := by
  refine ⟨rfl, rfl, ?_⟩
  intro h
  rw [show (Ppu.read8 pC4 7 memL).1 = Except.error (PpuError.BusErrorRead 0x4000) from rfl] at h
  rw [show (Ppu.read8 { pC4 with address := ((0x40 &&& 0x3f) <<< 8) ||| 0x00 } 7 memL).1 =
        Except.ok pC4.data_latch from rfl] at h
  exact Except.noConfusion h

/-- C5: a successful CPU read of offset 7 (DATA) returns the current
`data_latch`, then sets `data_latch` to the byte the PPU bus returns at the
current vram address, then increments the vram address modulo 2^16 by 32
when CTRL bit 2 is set and by 1 otherwise; nothing else changes. -/
theorem read8_data_spec (p : Ppu) (mem : MemR) (v : Nat) (h : mem p.address = Except.ok v)
    (hv : v < 256) :
    Ppu.read8 p 7 mem =
      (Except.ok p.data_latch,
       { p with
           data_latch := v,
           address := (p.address +
             (if p.registers.controller &&& 4 ≠ 0 then 32 else 1)) % 65536 }) := by
  obtain ⟨⟨c, mk, st, oa, sc, adr⟩, sa, sx, sy, ap, ad, om, dl⟩ := p
  simp only [Ppu.read8, h]
  rw [Nat.mod_eq_of_lt hv]
  by_cases hc : c &&& 4 ≠ 0 <;> simp [Ppu.increment_address, hc]

/-- C5 (witness): a DATA read on a fresh PPU against a bus returning 7. -/
theorem read8_data_spec_witness :
    Ppu.read8 Ppu.new 7 memW5 =
      (Except.ok Ppu.new.data_latch,
       { Ppu.new with
           data_latch := 7,
           address := (Ppu.new.address +
             (if Ppu.new.registers.controller &&& 4 ≠ 0 then 32 else 1)) % 65536 }) :=
  read8_data_spec Ppu.new memW5 7 rfl (by decide)

/-- C7: `vblank_start` sets STATUS.VBLANK and raises `nmi` in the returned
interrupt state exactly when CTRL bit 7 is set; `vblank_end` clears
STATUS.VBLANK and passes the interrupt state through; neither changes any
other PPU state. -/
theorem vblank_spec (p : Ppu) (i : InterruptState) :
    Ppu.vblank_start p i =
      ({ p with registers := { p.registers with status := p.registers.status ||| 128 } },
       if p.registers.controller &&& 128 ≠ 0 then { i with nmi := true } else i) ∧
    Ppu.vblank_end p i =
      ({ p with registers := { p.registers with status := p.registers.status &&& 0x7f } }, i) :=
  ⟨rfl, rfl⟩

/-- C9: a CPU write to offset 2 (STATUS) or to any offset outside 0-7
returns an error (`IllegalWrite` resp. `UnimplementedWrite`), yet the low 5
bits of the byte have already been OR-merged into STATUS: the returned
state is the input state with that merge applied. -/
theorem write8_error_nonatomic (p : Ppu) (b : Nat) (w : MemW) :
    (Ppu.write8 p 2 b w =
      (some (PpuError.IllegalWrite 2),
       { p with registers := { p.registers with status := p.registers.status ||| (b &&& 31) } })) ∧
    ∀ a, 8 ≤ a → Ppu.write8 p a b w =
      (some (PpuError.UnimplementedWrite a),
       { p with registers := { p.registers with status := p.registers.status ||| (b &&& 31) } }) := by
  refine ⟨rfl, ?_⟩
  intro a ha
  rcases a with _ | _ | _ | _ | _ | _ | _ | _ | n <;> first | omega | rfl

/-- C9 (witness): writing byte 5 to offset 8 on a fresh PPU fails with
`UnimplementedWrite 8` but still merges 5 into STATUS. -/
theorem write8_error_nonatomic_witness :
    Ppu.write8 Ppu.new 8 5 memw0 =
      (some (PpuError.UnimplementedWrite 8),
       { Ppu.new with registers :=
           { Ppu.new.registers with status := Ppu.new.registers.status ||| (5 &&& 31) } }) :=
  (write8_error_nonatomic Ppu.new 5 memw0).2 8 (by decide)

/-! ## Counting lemmas for the background renderer -/

theorem countRead_append (s t : Trace) (a : Nat) :
    countRead (s ++ t) a = countRead s a + countRead t a := by
  induction s with
  | nil => simp [countRead]
  | cons e s ih => cases e <;> (simp [countRead, ih]; try omega)

theorem or4096 : ∀ k, k < 256 → 4096 ||| (k * 16) = 4096 + k * 16 := by decide

theorem pt_bound (pt_base k : Nat) (hb : pt_base = 0 ∨ pt_base = 4096) (hk : k < 256) :
    (pt_base ||| (k * 16)) + 15 < 8192 := by
  rcases hb with rfl | rfl
  · rw [Nat.zero_or]
    omega
  · rw [or4096 k hk]
    omega

theorem bgTileCols_err (f : Nat → Nat) (pal : Nat) (px : Int) (py : Nat) :
    ∀ (l : List Nat) (r0 r1 : Nat), (bgTileCols (okM f) pal px py l r0 r1).2 = none := by
  intro l
  induction l with
  | nil => intro r0 r1; rfl
  | cons j js ih =>
    intro r0 r1
    simp only [bgTileCols, okM]
    split
    · split
      · simpa using ih _ _
      · simpa using ih _ _
    · exact ih _ _

theorem bgTileCols_count (f : Nat → Nat) (pal : Nat) (px : Int) (py a : Nat) (ha : a < pal) :
    ∀ (l : List Nat) (r0 r1 : Nat), countRead (bgTileCols (okM f) pal px py l r0 r1).1 a = 0 := by
  intro l
  induction l with
  | nil => intro r0 r1; rfl
  | cons j js ih =>
    intro r0 r1
    simp only [bgTileCols, okM]
    split
    · split
      · simp only [countRead]
        rw [if_neg (by omega)]
        simpa using ih _ _
      · simp only [countRead]
        rw [if_neg (by omega)]
        simpa using ih _ _
    · exact ih _ _

theorem bgTileRows_err (f : Nat → Nat) (pt pal : Nat) (px py : Int) :
    ∀ (l : List Nat), (bgTileRows (okM f) pt pal px py l).2 = none := by
  intro l
  induction l with
  | nil => rfl
  | cons i is ih =>
    simp only [bgTileRows, okM]
    split
    · simpa using ih
    · rw [bgTileCols_err]
      simpa using ih

theorem bgTileRows_count (f : Nat → Nat) (pt pal : Nat) (px py : Int) (a : Nat)
    (hpt : pt + 15 < 8192) (ha1 : 8192 ≤ a) (ha2 : a < pal) :
    ∀ (l : List Nat), (∀ i ∈ l, i < 8) →
      countRead (bgTileRows (okM f) pt pal px py l).1 a = 0 := by
  intro l
  induction l with
  | nil => intro _; rfl
  | cons i is ih =>
    intro hl
    have hi : i < 8 := hl i (List.mem_cons_self i is)
    have his : ∀ x ∈ is, x < 8 := fun x hx => hl x (List.mem_cons_of_mem i hx)
    simp only [bgTileRows, okM]
    split
    · simp only [countRead]
      rw [if_neg (by omega), if_neg (by omega)]
      simpa using ih his
    · rw [bgTileCols_err]
      simp only [countRead, countRead_append]
      rw [if_neg (by omega), if_neg (by omega)]
      rw [bgTileCols_count f pal px _ a ha2, ih his]

theorem render_background_tile_err (f : Nat → Nat) (pt_base nt lx ly : Nat) (px py : Int) :
    (render_background_tile (okM f) pt_base nt lx ly px py).2 = none := by
  simp only [render_background_tile, okM]
  exact bgTileRows_err f _ _ px py (List.range 8)

theorem render_background_tile_count (f : Nat → Nat) (pt_base nt lx ly : Nat) (px py : Int)
    (a : Nat) (hb : pt_base = 0 ∨ pt_base = 4096) (ha1 : 8192 ≤ a) (ha2 : a < 0x3f00) :
    countRead (render_background_tile (okM f) pt_base nt lx ly px py).1 a =
      (if nt + (ly * 32 + lx) = a then 1 else 0) +
      (if nt + 0x3c0 + ((ly / 4) * 8 + lx / 4) = a then 1 else 0) := by
  simp only [render_background_tile, okM]
  simp only [countRead]
  rw [bgTileRows_count f _ _ px py a
        (pt_bound pt_base (f (nt + (ly * 32 + lx)) % 256) hb (Nat.mod_lt _ (by omega)))
        ha1 (by omega) (List.range 8) (by simp [List.mem_range])]
  norm_num

theorem bgRowTiles_err (f : Nat → Nat) (pt_base tox : Nat) (pox poy : Int) (abs_i i : Nat) :
    ∀ (l : List Nat), (bgRowTiles (okM f) pt_base tox pox poy abs_i i l).2 = none := by
  intro l
  induction l with
  | nil => rfl
  | cons j js ih =>
    simp only [bgRowTiles]
    rw [render_background_tile_err]
    simpa using ih

theorem bgRowTiles_count (f : Nat → Nat) (pt_base tox : Nat) (pox poy : Int) (abs_i i a : Nat)
    (hb : pt_base = 0 ∨ pt_base = 4096) (ha1 : 8192 ≤ a) (ha2 : a < 0x3f00) :
    ∀ (l : List Nat),
      countRead (bgRowTiles (okM f) pt_base tox pox poy abs_i i l).1 a =
        (l.map (fun j => bgTileReadCountA abs_i ((j + tox) % 64) a)).sum := by
  intro l
  induction l with
  | nil => rfl
  | cons j js ih =>
    simp only [bgRowTiles]
    rw [render_background_tile_err]
    simp only [countRead_append, List.map_cons, List.sum_cons]
    rw [render_background_tile_count f _ _ _ _ _ _ a hb ha1 ha2, ih]
    simp [bgTileReadCountA]

theorem bgRows_err (f : Nat → Nat) (pt_base tox toy : Nat) (pox poy : Int) :
    ∀ (l : List Nat), (bgRows (okM f) pt_base tox toy pox poy l).2 = none := by
  intro l
  induction l with
  | nil => rfl
  | cons i is ih =>
    simp only [bgRows]
    rw [bgRowTiles_err]
    simpa using ih

theorem bgRows_count (f : Nat → Nat) (pt_base tox toy : Nat) (pox poy : Int) (a : Nat)
    (hb : pt_base = 0 ∨ pt_base = 4096) (ha1 : 8192 ≤ a) (ha2 : a < 0x3f00) :
    ∀ (l : List Nat),
      countRead (bgRows (okM f) pt_base tox toy pox poy l).1 a =
        (l.map (fun i =>
          ((List.range 33).map
            (fun j => bgTileReadCountA ((i + toy) % 60) ((j + tox) % 64) a)).sum)).sum := by
  intro l
  induction l with
  | nil => rfl
  | cons i is ih =>
    simp only [bgRows]
    rw [bgRowTiles_err]
    simp only [countRead_append, List.map_cons, List.sum_cons]
    rw [bgRowTiles_count f pt_base tox pox poy _ i a hb ha1 ha2, ih]

theorem render_background_err (p : Ppu) (f : Nat → Nat) :
    (render_background p (okM f)).2 = none := by
  simp only [render_background]
  exact bgRows_err f _ _ _ _ _ (List.range 31)

theorem render_background_count (p : Ppu) (f : Nat → Nat) (a : Nat)
    (hx : p.scroll_x = 0) (hy : p.scroll_y = 0) (hc : p.registers.controller &&& 3 = 0)
    (ha1 : 8192 ≤ a) (ha2 : a < 0x3f00) :
    countRead (render_background p (okM f)).1 a = bgTotal a := by
  have e1 : p.registers.controller &&& 3 &&& 1 = p.registers.controller &&& 1 := by
    rw [Nat.and_assoc]
    norm_num
  have e2 : p.registers.controller &&& 3 &&& 2 = p.registers.controller &&& 2 := by
    rw [Nat.and_assoc, (by decide : (3 : Nat) &&& 2 = 2)]
  have h1 : p.registers.controller &&& 1 = 0 := by rw [← e1, hc]; rfl
  have h2 : p.registers.controller &&& 2 = 0 := by rw [← e2, hc]; rfl
  have htl : background_top_left_coord p = (0, 0) := by
    simp [background_top_left_coord, hx, hy, h1, h2]
  have hb : background_base_patterntable_address p = 0 ∨
      background_base_patterntable_address p = 4096 := by
    unfold background_base_patterntable_address
    split
    · exact Or.inl rfl
    · exact Or.inr rfl
  simp only [render_background, htl]
  norm_num
  rw [bgRows_count f _ 0 0 _ _ a hb ha1 ha2 (List.range 31)]
  simp [bgTotal]

theorem countRead_eq_zero (a : Nat) :
    ∀ (t : Trace), (∀ e ∈ t, ∀ b, e ≠ Ev.read b) → countRead t a = 0 := by
  intro t
  induction t with
  | nil => intro _; rfl
  | cons e s ih =>
    intro h
    cases e with
    | read b => exact absurd rfl (h (Ev.read b) (List.mem_cons_self _ _) b)
    | pix x y c =>
      simpa [countRead] using ih (fun e he b => h e (List.mem_cons_of_mem _ he) b)

theorem render_universal_background_err (f : Nat → Nat) :
    (render_universal_background (okM f)).2 = none := rfl

theorem countRead_cons_read (b : Nat) (t : Trace) (a : Nat) :
    countRead (Ev.read b :: t) a = (if b = a then 1 else 0) + countRead t a := rfl

theorem render_universal_background_count (f : Nat → Nat) (a : Nat) (ha : ¬(0x3f00 = a)) :
    countRead (render_universal_background (okM f)).1 a = 0 := by
  simp only [render_universal_background, okM]
  rw [countRead_cons_read, if_neg ha, countRead_eq_zero a _ ?_, Nat.add_zero]
  intro e he b
  simp only [List.mem_flatMap, List.mem_map, List.mem_range] at he
  obtain ⟨i, _, j, _, rfl⟩ := he
  exact fun h => Ev.noConfusion h

theorem spriteCols_err (f : Nat → Nat) (pal : Nat) (hf : Bool) (sx py : Nat) :
    ∀ (l : List Nat) (r0 r1 : Nat), (spriteCols (okM f) pal hf sx py l r0 r1).2.1 = none := by
  intro l
  induction l with
  | nil => intro r0 r1; rfl
  | cons j js ih =>
    intro r0 r1
    simp only [spriteCols, okM]
    split
    · simpa using ih _ _
    · exact ih _ _

theorem spriteCols_count (f : Nat → Nat) (pal : Nat) (hf : Bool) (sx py a : Nat) (ha : a < pal) :
    ∀ (l : List Nat) (r0 r1 : Nat),
      countRead (spriteCols (okM f) pal hf sx py l r0 r1).1 a = 0 := by
  intro l
  induction l with
  | nil => intro r0 r1; rfl
  | cons j js ih =>
    intro r0 r1
    simp only [spriteCols, okM]
    split
    · simp only [countRead]
      rw [if_neg (by omega)]
      simpa using ih _ _
    · exact ih _ _

theorem spriteRows_err (f : Nat → Nat) (pt pal : Nat) (vf hf : Bool) (sx sy : Nat) :
    ∀ (l : List Nat), (spriteRows (okM f) pt pal vf hf sx sy l).2.1 = none := by
  intro l
  induction l with
  | nil => rfl
  | cons i is ih =>
    simp only [spriteRows, okM]
    rw [spriteCols_err]
    simpa using ih

theorem spriteRows_count (f : Nat → Nat) (pt pal : Nat) (vf hf : Bool) (sx sy a : Nat)
    (hpt : pt + 15 < 8192) (ha1 : 8192 ≤ a) (ha2 : a < pal) :
    ∀ (l : List Nat), (∀ i ∈ l, i < 8) →
      countRead (spriteRows (okM f) pt pal vf hf sx sy l).1 a = 0 := by
  intro l
  induction l with
  | nil => intro _; rfl
  | cons i is ih =>
    intro hl
    have hi : i < 8 := hl i (List.mem_cons_self i is)
    have his : ∀ x ∈ is, x < 8 := fun x hx => hl x (List.mem_cons_of_mem i hx)
    simp only [spriteRows, okM]
    rw [spriteCols_err]
    simp only [countRead, countRead_append]
    rw [if_neg (by omega), if_neg (by omega)]
    rw [spriteCols_count f pal hf sx _ a ha2, ih his]

theorem render_sprite_8x8_err (p : Ppu) (f : Nat → Nat) (s : Sprite) :
    (render_sprite_8x8 p (okM f) s).2.1 = none := by
  simp only [render_sprite_8x8]
  exact spriteRows_err f _ _ _ _ _ _ (List.range 8)

theorem render_sprite_8x8_count (p : Ppu) (f : Nat → Nat) (s : Sprite) (a : Nat)
    (ha1 : 8192 ≤ a) (ha2 : a < 0x3f00) :
    countRead (render_sprite_8x8 p (okM f) s).1 a = 0 := by
  have hb : sprite_base_patterntable_address p = 0 ∨
      sprite_base_patterntable_address p = 4096 := by
    unfold sprite_base_patterntable_address
    split
    · exact Or.inl rfl
    · exact Or.inr rfl
  simp only [render_sprite_8x8]
  exact spriteRows_count f _ _ _ _ _ _ a
    (pt_bound _ (s.index % 256) hb (Nat.mod_lt _ (by omega))) ha1 (by omega)
    (List.range 8) (by simp [List.mem_range])

theorem spritesLoop_err (p : Ppu) (f : Nat → Nat) :
    ∀ (l : List Nat) (st : Nat), (spritesLoop p (okM f) st l).2.1 = none := by
  intro l
  induction l with
  | nil => intro st; rfl
  | cons i is ih =>
    intro st
    simp only [spritesLoop]
    split
    · rw [render_sprite_8x8_err]
      simpa using ih _
    · exact ih _

theorem spritesLoop_count (p : Ppu) (f : Nat → Nat) (a : Nat)
    (ha1 : 8192 ≤ a) (ha2 : a < 0x3f00) :
    ∀ (l : List Nat) (st : Nat), countRead (spritesLoop p (okM f) st l).1 a = 0 := by
  intro l
  induction l with
  | nil => intro st; rfl
  | cons i is ih =>
    intro st
    simp only [spritesLoop]
    split
    · rw [render_sprite_8x8_err]
      simp only [countRead_append]
      rw [render_sprite_8x8_count p f _ a ha1 ha2, ih]
    · exact ih _

/-- A successful (total-memory) render unfolded into its three phases. -/
theorem render_okM_unfold (p : Ppu) (f : Nat → Nat) :
    render p (okM f) =
      ((render_universal_background (okM f)).1 ++ (render_background p (okM f)).1 ++
         (render_sprites_8x8 p (okM f)).1,
       { p with registers := { p.registers with status := (render_sprites_8x8 p (okM f)).2.2 } },
       (render_sprites_8x8 p (okM f)).2.1) := by
  simp only [render]
  rw [render_universal_background_err, render_background_err]

/-- Total number of reads of an address `a` in the nametable region, for a
full zero-scroll render: only the background tile loop contributes. -/
theorem render_count (p : Ppu) (f : Nat → Nat) (a : Nat)
    (hx : p.scroll_x = 0) (hy : p.scroll_y = 0) (hc : p.registers.controller &&& 3 = 0)
    (ha1 : 8192 ≤ a) (ha2 : a < 0x3f00) :
    countRead (render p (okM f)).1 a = bgTotal a := by
  rw [render_okM_unfold]
  simp only [countRead_append]
  rw [render_universal_background_count f a (by omega),
      render_background_count p f a hx hy hc ha1 ha2]
  simp only [render_sprites_8x8]
  rw [spritesLoop_count p f a ha1 ha2]
  omega

theorem sum_ite_range (n t : Nat) (h : t < n) :
    ((List.range n).map (fun j => if j = t then (1 : Nat) else 0)).sum = 1 := by
  induction n with
  | zero => omega
  | succ m ih =>
    rw [List.range_succ, List.map_append, List.sum_append]
    by_cases ht : t = m
    · subst ht
      rw [List.sum_eq_zero]
      · simp
      · intro x hx
        simp only [List.mem_map, List.mem_range] at hx
        obtain ⟨j, hj, rfl⟩ := hx
        rw [if_neg (by omega)]
    · rw [ih (by omega)]
      simp only [List.map_cons, List.map_nil, List.sum_cons, List.sum_nil]
      rw [if_neg (fun hh => ht hh.symm)]
      omega

theorem bgTileReadCountA_nt (i j ty tx : Nat) (hi31 : i < 31) (hj33 : j < 33)
    (hty : ty < 30) (htx : tx < 32) :
    bgTileReadCountA (i % 60) (j % 64) (0x2000 + (ty * 32 + tx)) =
      if i = ty ∧ j = tx then 1 else 0 := by
  have ei : i % 60 = i := Nat.mod_eq_of_lt (by omega)
  have ej : j % 64 = j := Nat.mod_eq_of_lt (by omega)
  rw [ei, ej]
  simp only [bgTileReadCountA, tile_coord_to_nametable_base]
  by_cases hj : j < 32 <;> by_cases hi : i < 30 <;>
    simp only [hj, hi, if_true, if_false, ite_true, ite_false]
  · rw [Nat.mod_eq_of_lt hj, Nat.mod_eq_of_lt hi]
    have h2 : ¬(0x2000 + 0x3c0 + (i / 4 * 8 + j / 4) = 0x2000 + (ty * 32 + tx)) := by omega
    have hcond : (0x2000 + (i * 32 + j) = 0x2000 + (ty * 32 + tx)) ↔ (i = ty ∧ j = tx) := by
      omega
    rw [if_neg h2, Nat.add_zero]
    simp only [hcond]
  · rw [if_neg (by omega), if_neg (by omega), if_neg (by omega)]
  · rw [if_neg (by omega), if_neg (by omega), if_neg (by omega)]
  · rw [if_neg (by omega), if_neg (by omega), if_neg (by omega)]

theorem bg_row_sum (ty tx i : Nat) (hty : ty < 30) (htx : tx < 32) (hi : i < 31) :
    ((List.range 33).map
      (fun j => bgTileReadCountA (i % 60) (j % 64) (0x2000 + (ty * 32 + tx)))).sum =
      if i = ty then 1 else 0 := by
  have hcg : List.map (fun j => bgTileReadCountA (i % 60) (j % 64) (0x2000 + (ty * 32 + tx)))
      (List.range 33) = List.map (fun j => if i = ty ∧ j = tx then (1 : Nat) else 0)
      (List.range 33) :=
    List.map_congr_left
      (fun j hj => bgTileReadCountA_nt i j ty tx hi (by simpa using hj) hty htx)
  rw [hcg]
  by_cases hit : i = ty
  · subst hit
    simp only [eq_self_iff_true, true_and]
    exact sum_ite_range 33 tx (by omega)
  · rw [if_neg hit]
    apply List.sum_eq_zero
    intro x hx
    simp only [List.mem_map, List.mem_range] at hx
    obtain ⟨j, hj, rfl⟩ := hx
    rw [if_neg (fun hh => hit hh.1)]

theorem bgTotal_nt (ty tx : Nat) (hty : ty < 30) (htx : tx < 32) :
    bgTotal (0x2000 + (ty * 32 + tx)) = 1 := by
  unfold bgTotal
  have hcg : List.map (fun i =>
        ((List.range 33).map
          (fun j => bgTileReadCountA (i % 60) (j % 64) (0x2000 + (ty * 32 + tx)))).sum)
      (List.range 31) = List.map (fun i => if i = ty then (1 : Nat) else 0) (List.range 31) :=
    List.map_congr_left (fun i hi => bg_row_sum ty tx i hty htx (by simpa using hi))
  rw [hcg]
  exact sum_ite_range 31 ty (by omega)

theorem bgTotal_attr : ∀ d, d < 64 → bgTotal (0x23c0 + d) = if d < 56 then 16 else 8 := by
  decide

/-- C3 (amended): from a state with `scroll_x = scroll_y = 0` and both CTRL
nametable-select bits clear, a single render reads each nametable byte
address in 0x2000-0x23BF exactly once, while each attribute byte address in
0x23C0-0x23F7 is read exactly 16 times and each in 0x23F8-0x23FF exactly 8
times (once per tile of its 4x4-tile cell, the bottom cells covering only
two tile rows). -/
theorem render_zero_scroll_read_counts (f : Nat → Nat) (p : Ppu)
    (hx : p.scroll_x = 0) (hy : p.scroll_y = 0) (hc : p.registers.controller &&& 3 = 0) :
    (∀ ty tx, ty < 30 → tx < 32 →
        countRead (render p (okM f)).1 (0x2000 + (ty * 32 + tx)) = 1) ∧
    (∀ d, d < 64 →
        countRead (render p (okM f)).1 (0x23c0 + d) = if d < 56 then 16 else 8) := by
  constructor
  · intro ty tx hty htx
    rw [render_count p f _ hx hy hc (by omega) (by omega)]
    exact bgTotal_nt ty tx hty htx
  · intro d hd
    rw [render_count p f _ hx hy hc (by omega) (by omega)]
    exact bgTotal_attr d hd

/-- C3 (witness for the amended claim): the first nametable byte address is
read exactly once by a render of the fresh PPU over the all-zero memory. -/
theorem render_zero_scroll_read_counts_witness :
    countRead (render Ppu.new (okM (fun _ => 0))).1 (0x2000 + (0 * 32 + 0)) = 1 :=
  (render_zero_scroll_read_counts (fun _ => 0) Ppu.new rfl rfl rfl).1 0 0 (by omega) (by omega)

/-- C3 (counterexample): the attribute byte address 0x23C0 is not read
exactly once by a zero-scroll render of a fresh PPU: it is read 16 times,
once per tile of its 4x4-tile cell. -/
theorem render_attr_read_count_counterexample :
    countRead (render Ppu.new (okM (fun _ => 0))).1 0x23c0 ≠ 1 := by
  have h := render_count Ppu.new (fun _ => 0) 0x23c0 rfl rfl rfl (by omega) (by omega)
  rw [h]
  have h2 := bgTotal_attr 0 (by omega)
  rw [Nat.add_zero] at h2
  rw [h2]
  decide

theorem spritesLoop_status (p : Ppu) (mem : MemR) :
    ∀ (l : List Nat), 0 ∉ l → ∀ (st : Nat), (spritesLoop p mem st l).2.2 = st := by
  intro l
  induction l with
  | nil => intro _ st; rfl
  | cons i is ih =>
    intro hl st
    have hi : i ≠ 0 := fun h => hl (h ▸ List.mem_cons_self i is)
    have his : 0 ∉ is := fun h => hl (List.mem_cons_of_mem i h)
    simp only [spritesLoop]
    split
    · cases hre : (render_sprite_8x8 p mem
        (Sprite.new (p.oam (i * 4 + 3)) (p.oam (i * 4 + 0)) (p.oam (i * 4 + 2))
          (p.oam (i * 4 + 1)))).2.1 with
      | some e => simp
      | none =>
        simp only
        rw [if_neg (fun hh => hi hh.1)]
        exact ih his st
    · exact ih his st

theorem spriteCols_hit (f : Nat → Nat) (pal : Nat) (hf : Bool) (sx py : Nat) :
    ∀ (l : List Nat) (r0 r1 : Nat),
      ((spriteCols (okM f) pal hf sx py l r0 r1).2.2 = true ↔
        ∃ x y c, Ev.pix x y c ∈ (spriteCols (okM f) pal hf sx py l r0 r1).1) := by
  intro l
  induction l with
  | nil =>
    intro r0 r1
    simp [spriteCols]
  | cons j js ih =>
    intro r0 r1
    simp only [spriteCols, okM]
    split
    · constructor
      · intro _
        exact ⟨(if hf then sx % 256 + j else sx % 256 + 8 - 1 - j), py,
          f (pal + ((r0 &&& 1) ||| ((r1 &&& 1) <<< 1))) % 256,
          List.mem_cons_of_mem _ (List.mem_cons_self _ _)⟩
      · intro _
        rfl
    · exact ih _ _

theorem spriteRows_hit (f : Nat → Nat) (pt pal : Nat) (vf hf : Bool) (sx sy : Nat) :
    ∀ (l : List Nat),
      ((spriteRows (okM f) pt pal vf hf sx sy l).2.2 = true ↔
        ∃ x y c, Ev.pix x y c ∈ (spriteRows (okM f) pt pal vf hf sx sy l).1) := by
  intro l
  induction l with
  | nil => simp [spriteRows]
  | cons i is ih =>
    simp only [spriteRows, okM]
    rw [spriteCols_err]
    simp only [Bool.or_eq_true, List.mem_cons, List.mem_append]
    constructor
    · intro h
      rcases h with h | h
      · obtain ⟨x, y, c, hm⟩ := (spriteCols_hit f pal hf sx _ (List.range 8) _ _).1 h
        exact ⟨x, y, c, Or.inr (Or.inr (Or.inl hm))⟩
      · obtain ⟨x, y, c, hm⟩ := ih.1 h
        exact ⟨x, y, c, Or.inr (Or.inr (Or.inr hm))⟩
    · intro h
      obtain ⟨x, y, c, hm⟩ := h
      rcases hm with hm | hm | hm | hm
      · exact absurd hm (fun hh => Ev.noConfusion hh)
      · exact absurd hm (fun hh => Ev.noConfusion hh)
      · exact Or.inl ((spriteCols_hit f pal hf sx _ (List.range 8) _ _).2 ⟨x, y, c, hm⟩)
      · exact Or.inr (ih.2 ⟨x, y, c, hm⟩)

theorem render_sprite_8x8_hit (p : Ppu) (f : Nat → Nat) (s : Sprite) :
    ((render_sprite_8x8 p (okM f) s).2.2 = true ↔
      ∃ x y c, Ev.pix x y c ∈ (render_sprite_8x8 p (okM f) s).1) := by
  simp only [render_sprite_8x8]
  exact spriteRows_hit f _ _ _ _ _ _ (List.range 8)

theorem spritesLoop_zero_head (p : Ppu) (f : Nat → Nat) (l : List Nat) (hnm : 0 ∉ l)
    (st : Nat) :
    (spritesLoop p (okM f) st (0 :: l)).2.2 =
      if (Sprite.new (p.oam 3) (p.oam 0) (p.oam 2) (p.oam 1)).is_visible ∧
          (render_sprite_8x8 p (okM f)
            (Sprite.new (p.oam 3) (p.oam 0) (p.oam 2) (p.oam 1))).2.2
        then st ||| 64 else st := by
  simp only [spritesLoop, Nat.zero_mul, Nat.zero_add]
  split
  · next hvis =>
    simp only [render_sprite_8x8_err]
    rw [spritesLoop_status p (okM f) l hnm _]
    simp only [hvis, eq_self_iff_true, true_and]
  · next hvis =>
    rw [spritesLoop_status p (okM f) l hnm st]
    rw [if_neg (fun hh => hvis hh.1)]

/-- C6: a sprite slot whose OAM Y byte is at least 0xEF is skipped entirely
(removing it from the slot list changes neither trace, error, nor STATUS);
and a render sets STATUS.SPRITE_0_HIT (bit 6, by OR) exactly when sprite
slot 0 is visible and rendering it reported a hit, where the hit flag holds
exactly when at least one opaque pixel was emitted for it. -/
theorem sprite_skip_and_sprite0_hit (p : Ppu) (f : Nat → Nat) :
    (∀ (st i : Nat) (is : List Nat), 0xef ≤ p.oam (i * 4 + 0) →
        spritesLoop p (okM f) st (i :: is) = spritesLoop p (okM f) st is) ∧
    ((render p (okM f)).2.1.registers.status =
      if (Sprite.new (p.oam 3) (p.oam 0) (p.oam 2) (p.oam 1)).is_visible ∧
          (render_sprite_8x8 p (okM f)
            (Sprite.new (p.oam 3) (p.oam 0) (p.oam 2) (p.oam 1))).2.2
        then p.registers.status ||| 64 else p.registers.status) ∧
    ((render_sprite_8x8 p (okM f)
        (Sprite.new (p.oam 3) (p.oam 0) (p.oam 2) (p.oam 1))).2.2 = true ↔
      ∃ x y c, Ev.pix x y c ∈
        (render_sprite_8x8 p (okM f)
          (Sprite.new (p.oam 3) (p.oam 0) (p.oam 2) (p.oam 1))).1) := by
  refine ⟨?_, ?_, render_sprite_8x8_hit p f _⟩
  · intro st i is h
    have hv : ¬((Sprite.new (p.oam (i * 4 + 3)) (p.oam (i * 4 + 0)) (p.oam (i * 4 + 2))
        (p.oam (i * 4 + 1))).is_visible = true) := by
      simp only [Sprite.is_visible, Sprite.new, decide_eq_true_eq]
      omega
    simp only [spritesLoop]
    rw [if_neg hv]
  · have hnm : 0 ∉ List.map Nat.succ (List.range 63) := by simp
    rw [render_okM_unfold]
    show (render_sprites_8x8 p (okM f)).2.2 = _
    simp only [render_sprites_8x8]
    have e : List.range 64 = 0 :: List.map Nat.succ (List.range 63) :=
      List.range_succ_eq_map 63
    rw [e]
    exact spritesLoop_zero_head p f _ hnm _

/-- C6 (witness): on a state whose OAM is all 0xEF, slot 0 is skipped: the
sprite loop over the slot list [0] equals the loop over the empty list. -/
theorem sprite_skip_and_sprite0_hit_witness :
    spritesLoop pC6 (okM (fun _ => 0)) 0 (0 :: []) =
      spritesLoop pC6 (okM (fun _ => 0)) 0 [] :=
  (sprite_skip_and_sprite0_hit pC6 (fun _ => 0)).1 0 0 [] (by decide)

theorem bgTileCols_badPix (mem : MemR) (pal : Nat) (px : Int) (py : Nat) (hpy : py < 240) :
    ∀ (l : List Nat) (r0 r1 : Nat), (bgTileCols mem pal px py l r0 r1).1.countP badPix = 0 := by
  intro l
  induction l with
  | nil => intro r0 r1; rfl
  | cons j js ih =>
    intro r0 r1
    simp only [bgTileCols]
    split
    · split
      · simp [List.countP_cons, badPix]
      · split
        · next hx =>
          simp only [List.countP_cons, badPix, ih, Bool.or_eq_true, decide_eq_true_eq]
          rw [if_neg (by omega)]
          simp
        · simp only [List.countP_cons, badPix, ih]
          simp
    · exact ih _ _

theorem bgTileRows_badPix (mem : MemR) (pt pal : Nat) (px py : Int) :
    ∀ (l : List Nat), (bgTileRows mem pt pal px py l).1.countP badPix = 0 := by
  intro l
  induction l with
  | nil => rfl
  | cons i is ih =>
    simp only [bgTileRows]
    split
    · simp [List.countP_cons, badPix]
    · split
      · simp [List.countP_cons, badPix]
      · split
        · simp [List.countP_cons, badPix, ih]
        · next hy =>
          split
          · simp [List.countP_cons, badPix,
              bgTileCols_badPix mem pal px (py + (i : Int)).toNat (by omega) (List.range 8)]
          · simp [List.countP_cons, List.countP_append, badPix,
              bgTileCols_badPix mem pal px (py + (i : Int)).toNat (by omega) (List.range 8), ih]

theorem render_background_tile_badPix (mem : MemR) (pt_base nt lx ly : Nat) (px py : Int) :
    (render_background_tile mem pt_base nt lx ly px py).1.countP badPix = 0 := by
  simp only [render_background_tile]
  split
  · simp [List.countP_cons, badPix]
  · split
    · simp [List.countP_cons, badPix]
    · simp [List.countP_cons, badPix, bgTileRows_badPix mem _ _ px py (List.range 8)]

theorem bgRowTiles_badPix (mem : MemR) (pt_base tox : Nat) (pox poy : Int) (abs_i i : Nat) :
    ∀ (l : List Nat), (bgRowTiles mem pt_base tox pox poy abs_i i l).1.countP badPix = 0 := by
  intro l
  induction l with
  | nil => rfl
  | cons j js ih =>
    simp only [bgRowTiles]
    split
    · simp [render_background_tile_badPix]
    · simp [List.countP_append, render_background_tile_badPix, ih]

theorem bgRows_badPix (mem : MemR) (pt_base tox toy : Nat) (pox poy : Int) :
    ∀ (l : List Nat), (bgRows mem pt_base tox toy pox poy l).1.countP badPix = 0 := by
  intro l
  induction l with
  | nil => rfl
  | cons i is ih =>
    simp only [bgRows]
    split
    · simp [bgRowTiles_badPix]
    · simp [List.countP_append, bgRowTiles_badPix, ih]

theorem render_background_badPix (p : Ppu) (mem : MemR) :
    (render_background p mem).1.countP badPix = 0 := by
  simp only [render_background]
  exact bgRows_badPix mem _ _ _ _ _ (List.range 31)

theorem spritesLoop_zero_head_trace (p : Ppu) (f : Nat → Nat) (l : List Nat) (st : Nat)
    (hvis : (Sprite.new (p.oam 3) (p.oam 0) (p.oam 2) (p.oam 1)).is_visible = true) :
    (spritesLoop p (okM f) st (0 :: l)).1 =
      (render_sprite_8x8 p (okM f) (Sprite.new (p.oam 3) (p.oam 0) (p.oam 2) (p.oam 1))).1 ++
        (spritesLoop p (okM f)
          (if 0 = 0 ∧ (render_sprite_8x8 p (okM f)
              (Sprite.new (p.oam 3) (p.oam 0) (p.oam 2) (p.oam 1))).2.2
           then st ||| 64 else st) l).1 := by
  simp only [spritesLoop, Nat.zero_mul, Nat.zero_add]
  rw [if_pos hvis]
  simp only [render_sprite_8x8_err]

/-- C8: sprite pixel coordinates are passed to the frame sink unclipped --
on the reachable state `p8` (visible sprite with Y = 0xEE, X = 0xFF) the
render calls set_pixel at (262, 245), outside the 256-by-240 frame --
whereas the background tile renderer never emits an out-of-frame pixel, for
any state and any memory. -/
theorem sprite_pixels_unclipped_background_clipped :
    ((Ev.pix 262 245 0 ∈ (render p8 (okM f8)).1) ∧ 256 ≤ 262 ∧ 240 ≤ 245) ∧
    ∀ (p : Ppu) (mem : MemR), (render_background p mem).1.countP badPix = 0 := by
  refine ⟨⟨?_, by omega, by omega⟩, fun p mem => render_background_badPix p mem⟩
  rw [render_okM_unfold]
  apply List.mem_append_right
  simp only [render_sprites_8x8]
  have e : List.range 64 = 0 :: List.map Nat.succ (List.range 63) :=
    List.range_succ_eq_map 63
  rw [e]
  rw [spritesLoop_zero_head_trace p8 f8 _ _ (by decide)]
  apply List.mem_append_left
  decide

/-- C10: the render never consults the MASK register: changing only MASK
changes nothing about a render -- same event trace (bus reads and set_pixel
calls in the same order), same error, and the same post state apart from
MASK itself. -/
theorem render_mask_noninterference (p : Ppu) (m : Nat) (mem : MemR) :
    render { p with registers := { p.registers with mask := m } } mem =
      ((render p mem).1,
       { (render p mem).2.1 with
           registers := { (render p mem).2.1.registers with mask := m } },
       (render p mem).2.2) := by
  obtain ⟨⟨c, mk, st, oa, sc, adr⟩, sa, sx, sy, ap, ad, om, dl⟩ := p
  have hbg : render_background ⟨⟨c, m, st, oa, sc, adr⟩, sa, sx, sy, ap, ad, om, dl⟩ mem =
      render_background ⟨⟨c, mk, st, oa, sc, adr⟩, sa, sx, sy, ap, ad, om, dl⟩ mem := rfl
  have hrs : ∀ s, render_sprite_8x8 ⟨⟨c, m, st, oa, sc, adr⟩, sa, sx, sy, ap, ad, om, dl⟩ mem s =
      render_sprite_8x8 ⟨⟨c, mk, st, oa, sc, adr⟩, sa, sx, sy, ap, ad, om, dl⟩ mem s :=
    fun s => rfl
  have hsp : ∀ (l : List Nat) (st2 : Nat),
      spritesLoop ⟨⟨c, m, st, oa, sc, adr⟩, sa, sx, sy, ap, ad, om, dl⟩ mem st2 l =
        spritesLoop ⟨⟨c, mk, st, oa, sc, adr⟩, sa, sx, sy, ap, ad, om, dl⟩ mem st2 l := by
    intro l
    induction l with
    | nil => intro st2; rfl
    | cons i is ih =>
      intro st2
      simp only [spritesLoop]
      rw [hrs]
      split
      · split
        · rfl
        · rw [ih]
      · exact ih st2
  simp only [render, render_sprites_8x8]
  rw [hbg, hsp]
  cases hu : (render_universal_background mem).2 with
  | some e => simp
  | none =>
    simp only
    cases hb2 : (render_background ⟨⟨c, mk, st, oa, sc, adr⟩, sa, sx, sy, ap, ad, om, dl⟩
        mem).2 with
    | some e => simp
    | none => simp
